import Mathlib

/-!
Verification of the personal-data-vault repository.

The repository's `src/` tree contains the React presentation layer
(`ConnectionsPage.js`, `AccountPage.js`, `DashboardPage.js`, and the
Exports/Login/Layout pages).  The FastAPI backend (sync orchestrator,
record store, credential vault, purge endpoint) is not part of `src/`;
wherever a property depends on backend behaviour, the corresponding
definition is modelled from the specification (its doc comment starts
with `Modelled from the spec:`).  Frontend functions are embedded
directly from the JavaScript source.
-/

/-! ## Record store (modelled from the spec) -/

/-- Modelled from the spec: the dedup key of a unified Record is
(user, provider, dataset, external_id) (spec §3). -/
structure RecordKey where
  user : String
  provider : String
  dataset : String
  external_id : String
deriving DecidableEq

/-- Modelled from the spec: a unified Record — dedup key, opaque body
payload, ingestion timestamp (spec §3). -/
structure Record where
  key : RecordKey
  body : String
  ingested_at : Nat
deriving DecidableEq

/-- The keys of all records currently in the store. -/
def keys (store : List Record) : List RecordKey :=
  store.map Record.key

/-- Modelled from the spec: `upsert(record)` keyed by
(user, provider, dataset, external_id) — insertion is idempotent, a
re-ingest with identical id overwrites the body rather than duplicating
(spec §4.3, §4.4). -/
def upsert (store : List Record) (r : Record) : List Record :=
  if store.any (fun x => x.key == r.key) then
    store.map (fun x => if x.key == r.key then r else x)
  else
    store ++ [r]

/-- Number of live records in the store carrying a given dedup key. -/
def countKey (store : List Record) (k : RecordKey) : Nat :=
  (store.filter (fun x => x.key == k)).length

theorem keys_upsert_of_mem (store : List Record) (r : Record)
    (h : store.any (fun x => x.key == r.key)) :
    keys (upsert store r) = keys store := by
  simp only [upsert, if_pos h, keys, List.map_map]
  apply List.map_congr_left
  intro x _
  by_cases hx : x.key = r.key
  · simp [Function.comp, hx]
  · simp [Function.comp, hx]

theorem keys_upsert_of_not_mem (store : List Record) (r : Record)
    (h : ¬ store.any (fun x => x.key == r.key)) :
    keys (upsert store r) = keys store ++ [r.key] := by
  unfold upsert
  rw [if_neg h]
  simp [keys]

theorem upsert_nodup (store : List Record) (r : Record)
    (h : (keys store).Nodup) : (keys (upsert store r)).Nodup := by
  by_cases hmem : store.any (fun x => x.key == r.key)
  · rw [keys_upsert_of_mem store r hmem]
    exact h
  · rw [keys_upsert_of_not_mem store r hmem]
    rw [List.nodup_append]
    refine ⟨h, List.nodup_singleton _, ?_⟩
    intro a ha hb
    simp only [List.mem_singleton] at hb
    subst hb
    simp only [List.any_eq_true, beq_iff_eq] at hmem
    simp only [keys, List.mem_map] at ha
    obtain ⟨x, hx, hxk⟩ := ha
    exact hmem ⟨x, hx, hxk⟩

theorem foldl_upsert_nodup (items : List Record) (init : List Record)
    (h : (keys init).Nodup) : (keys (items.foldl upsert init)).Nodup := by
  induction items generalizing init with
  | nil => exact h
  | cons a as ih =>
    simp only [List.foldl_cons]
    exact ih (upsert init a) (upsert_nodup init a h)

theorem countKey_le_one_of_nodup (store : List Record) (k : RecordKey)
    (h : (keys store).Nodup) : countKey store k ≤ 1 := by
  induction store with
  | nil => simp [countKey]
  | cons a as ih =>
    simp only [keys, List.map_cons, List.nodup_cons] at h
    obtain ⟨hak, has⟩ := h
    by_cases hk : a.key = k
    · subst hk
      have hfil : as.filter (fun x => x.key == a.key) = [] := by
        rw [List.filter_eq_nil_iff]
        intro x hx
        simp only [beq_iff_eq]
        exact fun hxe => hak (hxe ▸ List.mem_map_of_mem Record.key hx)
      simp [countKey, List.filter_cons, hfil]
    · have hne : (a.key == k) = false := by
        simp [hk]
      simp only [countKey, List.filter_cons, hne]
      exact ih has

theorem filter_map_replace (s : List Record) (r : Record)
    (hnd : (keys s).Nodup) (hmem : ∃ w ∈ s, w.key = r.key) :
    (s.map (fun x => if x.key == r.key then r else x)).filter
      (fun x => x.key == r.key) = [r] := by
  induction s with
  | nil => obtain ⟨w, hw, _⟩ := hmem; cases hw
  | cons a as ih =>
    simp only [keys, List.map_cons, List.nodup_cons] at hnd
    obtain ⟨hak, has⟩ := hnd
    by_cases ha : a.key = r.key
    · have hras : r.key ∉ List.map Record.key as := ha ▸ hak
      have htail : (as.map (fun x => if x.key == r.key then r else x)).filter
          (fun x => x.key == r.key) = [] := by
        rw [List.filter_eq_nil_iff]
        intro y hy
        simp only [List.mem_map] at hy
        obtain ⟨x, hx, hxy⟩ := hy
        have hxk : ¬ x.key = r.key := by
          intro hc
          exact hras (hc ▸ List.mem_map_of_mem Record.key hx)
        have : y = x := by
          rw [← hxy]
          simp [hxk]
        rw [this]
        simp [hxk]
      simp only [List.map_cons]
      rw [show (if a.key == r.key then r else a) = r by simp [ha]]
      rw [List.filter_cons_of_pos (by simp)]
      rw [htail]
    · obtain ⟨w, hw, hwk⟩ := hmem
      have hwas : w ∈ as := by
        rcases List.mem_cons.mp hw with hwa | hwas
        · exact absurd (hwa ▸ hwk) ha
        · exact hwas
      simp only [List.map_cons]
      rw [show (if a.key == r.key then r else a) = a by simp [ha]]
      rw [List.filter_cons_of_neg (by simp [ha])]
      exact ih has ⟨w, hwas, hwk⟩

theorem filter_upsert_self (store : List Record) (r : Record)
    (h : (keys store).Nodup) :
    (upsert store r).filter (fun x => x.key == r.key) = [r] := by
  by_cases hmem : store.any (fun x => x.key == r.key)
  · unfold upsert
    rw [if_pos hmem]
    simp only [List.any_eq_true, beq_iff_eq] at hmem
    obtain ⟨w, hw, hwk⟩ := hmem
    exact filter_map_replace store r h ⟨w, hw, hwk⟩
  · unfold upsert
    rw [if_neg hmem]
    rw [List.filter_append]
    have hnil : store.filter (fun x => x.key == r.key) = [] := by
      rw [List.filter_eq_nil_iff]
      intro x hx
      simp only [List.any_eq_true, beq_iff_eq] at hmem
      simp only [beq_iff_eq]
      exact fun hc => hmem ⟨x, hx, hc⟩
    rw [hnil]
    simp

/-- After two same-key upserts the store holds exactly one
record with that key, and its body is the second item's body. -/
theorem upsert_upsert_same_key (s : List Record) (r1 r2 : Record)
    (hnd : (keys s).Nodup) :
    countKey (upsert (upsert s r1) r2) r2.key = 1 ∧
    ∀ x ∈ upsert (upsert s r1) r2, x.key = r2.key → x.body = r2.body := by
  have hnd1 : (keys (upsert s r1)).Nodup := upsert_nodup s r1 hnd
  have hfilter := filter_upsert_self (upsert s r1) r2 hnd1
  constructor
  · simp [countKey, hfilter]
  · intro x hx hxk
    have : x ∈ (upsert (upsert s r1) r2).filter (fun y => y.key == r2.key) := by
      rw [List.mem_filter]
      exact ⟨hx, by simp [hxk]⟩
    rw [hfilter] at this
    simp only [List.mem_singleton] at this
    rw [this]

/-- C1: for every store reachable by any sequence of upsert operations
from a unique-key store, at most one live Record per dedup key
(user, provider, dataset, external_id) exists; ingesting two raw items
that share the same key produces exactly one Record whose body is the
later item's body. -/
theorem record_store_dedup_invariant
    (init items : List Record) (hinit : (keys init).Nodup)
    (s : List Record) (r1 r2 : Record)
    (hs : (keys s).Nodup) (hk : r1.key = r2.key) :
    (∀ k, countKey (items.foldl upsert init) k ≤ 1) ∧
    countKey (upsert (upsert s r1) r2) r2.key = 1 ∧
    (∀ x ∈ upsert (upsert s r1) r2, x.key = r2.key → x.body = r2.body) := by
  refine ⟨fun k => countKey_le_one_of_nodup _ k (foldl_upsert_nodup items init hinit), ?_⟩
  have _hk := hk
  exact upsert_upsert_same_key s r1 r2 hs

/-- A sample dedup key used by concrete witnesses. -/
def sampleKey : RecordKey := ⟨"u1", "spotify", "tracks", "t1"⟩

/-- A sample record (the earlier ingest). -/
def sampleRec1 : Record := ⟨sampleKey, "body-earlier", 1⟩

/-- A sample record with the same key (the later ingest). -/
def sampleRec2 : Record := ⟨sampleKey, "body-later", 2⟩

/-- Witness for C1 at a concrete store and pair of same-key records. -/
theorem record_store_dedup_invariant_witness :
    (keys ([] : List Record)).Nodup ∧ sampleRec1.key = sampleRec2.key ∧
    ((∀ k, countKey ([sampleRec1, sampleRec2].foldl upsert ([] : List Record)) k ≤ 1) ∧
     countKey (upsert (upsert [] sampleRec1) sampleRec2) sampleRec2.key = 1 ∧
     (∀ x ∈ upsert (upsert ([] : List Record) sampleRec1) sampleRec2,
        x.key = sampleRec2.key → x.body = sampleRec2.body)) :=
  ⟨by decide, by decide,
   record_store_dedup_invariant [] [sampleRec1, sampleRec2] (by decide)
     [] sampleRec1 sampleRec2 (by decide) (by decide)⟩

/-! ## Sync run (modelled from the spec) -/

/-- Upserting a record already present verbatim in a unique-key store
leaves the store unchanged (dedup-key idempotence of re-ingest). -/
theorem upsert_of_mem (store : List Record) (r : Record)
    (hnd : (keys store).Nodup) (hr : r ∈ store) : upsert store r = store := by
  have hany : store.any (fun x => x.key == r.key) := by
    rw [List.any_eq_true]
    exact ⟨r, hr, by simp⟩
  unfold upsert
  rw [if_pos hany]
  have hptwise : ∀ x ∈ store, (if x.key == r.key then r else x) = x := by
    intro x hx
    by_cases hxk : x.key = r.key
    · have hinj := List.inj_on_of_nodup_map (f := Record.key) (l := store)
        (by simpa [keys] using hnd)
      have hxr : x = r := hinj hx hr hxk
      simp [hxk, hxr]
    · simp [hxk]
  rw [List.map_congr_left hptwise]
  simp

theorem foldl_upsert_of_forall_mem (items store : List Record)
    (hnd : (keys store).Nodup) (hall : ∀ r ∈ items, r ∈ store) :
    items.foldl upsert store = store := by
  induction items with
  | nil => rfl
  | cons a as ih =>
    simp only [List.foldl_cons]
    rw [upsert_of_mem store a hnd (hall a (List.mem_cons_self a as))]
    exact ih (fun r hr => hall r (List.mem_cons_of_mem a hr))

/-- Modelled from the spec: one sync run (spec §4.3) — loop:
`connector.fetch(cursor, credential) -> (rawItems, nextCursor, hasMore)`,
map raw items to unified Records (unmappable items are skipped), upsert
each by dedup key, advance the Cursor to `nextCursor` only after the
batch is persisted, continue while `hasMore`.  The backend orchestrator
is not under `src/`; the loop is given explicit fuel. -/
def syncLoop (fetch : String → List String × String × Bool)
    (mapToUnified : String → Option Record) :
    Nat → String → List Record → List Record × String
  | 0, cursor, store => (store, cursor)
  | fuel + 1, cursor, store =>
    let step := fetch cursor
    let recs := step.1.filterMap mapToUnified
    let store2 := recs.foldl upsert store
    if step.2.2 then syncLoop fetch mapToUnified fuel step.2.1 store2
    else (store2, step.2.1)

/-- C2: if the upstream has no new data — the fetch at the saved cursor
returns only items whose unified Records are already in the store, hands
back the same cursor, and reports no further pages — then a second sync
run adds zero new Records and leaves the Cursor unchanged. -/
theorem sync_idempotent_no_new_data
    (fetch : String → List String × String × Bool)
    (mapToUnified : String → Option Record)
    (fuel : Nat) (cursor : String) (store : List Record)
    (hnd : (keys store).Nodup) (raw : List String)
    (hfetch : fetch cursor = (raw, cursor, false))
    (hknown : ∀ r ∈ raw.filterMap mapToUnified, r ∈ store) :
    syncLoop fetch mapToUnified (fuel + 1) cursor store = (store, cursor) := by
  simp only [syncLoop, hfetch]
  rw [foldl_upsert_of_forall_mem _ _ hnd hknown]
  simp

/-- A constant connector used by the C2 witness: it always serves the
single raw item already ingested and signals no further pages. -/
def constFetch : String → List String × String × Bool :=
  fun _ => (["itemA"], "c0", false)

/-- The C2 witness mapper: maps the known raw item to the record
already in the store. -/
def constMap : String → Option Record :=
  fun s => if s = "itemA" then some sampleRec2 else none

/-- Witness for C2 at a concrete connector, cursor and store. -/
theorem sync_idempotent_no_new_data_witness :
    (keys [sampleRec2]).Nodup ∧
    constFetch "c0" = (["itemA"], "c0", false) ∧
    (∀ r ∈ ["itemA"].filterMap constMap, r ∈ [sampleRec2]) ∧
    syncLoop constFetch constMap 1 "c0" [sampleRec2] = ([sampleRec2], "c0") :=
  ⟨by decide, rfl, by decide,
   sync_idempotent_no_new_data constFetch constMap 0 "c0" [sampleRec2]
     (by decide) ["itemA"] rfl (by decide)⟩

/-! ## Connections, sync status and the trigger guard -/

/-- Modelled from the spec: the Connection last-sync status ranges over
pending, syncing, success, error (spec §3). -/
inductive SyncStatus
  | pending
  | syncing
  | success
  | error
deriving DecidableEq

/-- The wire representation of a sync status as the frontend receives it. -/
def statusToString : SyncStatus → String
  | SyncStatus.pending => "pending"
  | SyncStatus.syncing => "syncing"
  | SyncStatus.success => "success"
  | SyncStatus.error => "error"

/-- Modelled from the spec: a Connection — (user, provider) pair with
active flag, last-sync timestamp, last-sync status and last error
message (spec §3). -/
structure Connection where
  user : String
  provider : String
  is_active : Bool
  last_sync_at : Option Nat
  sync_status : SyncStatus
  sync_error : Option String
deriving DecidableEq

/-- Outcome of a triggerSync request (spec §6). -/
inductive TriggerResult
  | accepted
  | rejected (msg : String)
deriving DecidableEq

/-- Modelled from the spec: `triggerSync(user, provider)` — a run is
rejected (returns "already syncing") if the Connection's current status
is already `syncing`; otherwise the status is compare-and-set to
`syncing` and the run proceeds (spec §4.3, §5, §6). -/
def triggerSync (conn : Connection) : TriggerResult × Connection :=
  if conn.sync_status = SyncStatus.syncing then
    (TriggerResult.rejected "already syncing", conn)
  else
    (TriggerResult.accepted, { conn with sync_status := SyncStatus.syncing })

/-- From `ConnectionsPage.js` line 215:
`syncing[provider.id] || connection?.sync_status === 'syncing'`. -/
def isSyncing (localSyncing : Bool) (sync_status : Option String) : Bool :=
  localSyncing || sync_status == some "syncing"

/-- From `ConnectionsPage.js` lines 263–271: the Sync button carries
`disabled={isSyncing}`. -/
def syncButtonDisabled (localSyncing : Bool) (sync_status : Option String) : Bool :=
  isSyncing localSyncing sync_status

/-- C3: a triggerSync on a Connection whose status is `syncing` is
rejected with "already syncing" and the Connection is left unchanged; a
trigger is accepted only from a non-syncing status, and after an
accepted trigger a second trigger is rejected, so at most one run per
Connection proceeds; the UI disables the Sync button whenever
sync_status is "syncing". -/
theorem sync_exclusivity (conn : Connection) :
    (conn.sync_status = SyncStatus.syncing →
       triggerSync conn = (TriggerResult.rejected "already syncing", conn)) ∧
    ((triggerSync conn).1 = TriggerResult.accepted →
       conn.sync_status ≠ SyncStatus.syncing) ∧
    (conn.sync_status ≠ SyncStatus.syncing →
       (triggerSync conn).1 = TriggerResult.accepted ∧
       (triggerSync (triggerSync conn).2).1 =
         TriggerResult.rejected "already syncing") ∧
    (∀ b : Bool, syncButtonDisabled b (some (statusToString SyncStatus.syncing)) = true) := by
  refine ⟨?_, ?_, ?_, ?_⟩
  · intro h
    simp [triggerSync, h]
  · intro h hs
    simp [triggerSync, hs] at h
  · intro h
    constructor
    · simp [triggerSync, h]
    · simp [triggerSync, h]
  · intro b
    simp [syncButtonDisabled, isSyncing, statusToString]

/-- A sample active connection in a non-syncing state. -/
def sampleConn : Connection :=
  ⟨"u1", "spotify", true, none, SyncStatus.success, none⟩

/-- Witness for C3 at a concrete connection. -/
theorem sync_exclusivity_witness :
    sampleConn.sync_status ≠ SyncStatus.syncing ∧
    ((triggerSync sampleConn).1 = TriggerResult.accepted ∧
     (triggerSync (triggerSync sampleConn).2).1 =
       TriggerResult.rejected "already syncing") ∧
    syncButtonDisabled false (some (statusToString SyncStatus.syncing)) = true :=
  ⟨by decide, (sync_exclusivity sampleConn).2.2.1 (by decide),
   (sync_exclusivity sampleConn).2.2.2 false⟩

/-! ## The status badge (from `ConnectionsPage.js`) -/

/-- The four badges `getSyncStatusBadge` can render. -/
inductive Badge
  | synced
  | syncing
  | error
  | pending
deriving DecidableEq

/-- From `ConnectionsPage.js` lines 141–172: `getSyncStatusBadge`
switches on the status string; `success`, `syncing` and `error` have
their own badges and every other input falls through to the Pending
badge. -/
def getSyncStatusBadge (status : Option String) : Badge :=
  if status = some "success" then Badge.synced
  else if status = some "syncing" then Badge.syncing
  else if status = some "error" then Badge.error
  else Badge.pending

/-- C8: the last-sync status ranges over exactly
pending/syncing/success/error, and the badge function is total: the
three named statuses map to their badges and every other input
(including an absent status) maps to the Pending badge. -/
theorem sync_status_badge_total :
    (∀ st : SyncStatus,
       statusToString st = "pending" ∨ statusToString st = "syncing" ∨
       statusToString st = "success" ∨ statusToString st = "error") ∧
    (∀ s ∈ ["pending", "syncing", "success", "error"],
       ∃ st : SyncStatus, statusToString st = s) ∧
    getSyncStatusBadge (some "success") = Badge.synced ∧
    getSyncStatusBadge (some "syncing") = Badge.syncing ∧
    getSyncStatusBadge (some "error") = Badge.error ∧
    getSyncStatusBadge none = Badge.pending ∧
    (∀ s : String, s ≠ "success" → s ≠ "syncing" → s ≠ "error" →
       getSyncStatusBadge (some s) = Badge.pending) := by
  refine ⟨?_, ?_, by decide, by decide, by decide, by decide, ?_⟩
  · intro st
    cases st <;> simp [statusToString]
  · intro s hs
    simp only [List.mem_cons, List.not_mem_nil, or_false] at hs
    rcases hs with h | h | h | h
    · exact ⟨SyncStatus.pending, h ▸ rfl⟩
    · exact ⟨SyncStatus.syncing, h ▸ rfl⟩
    · exact ⟨SyncStatus.success, h ▸ rfl⟩
    · exact ⟨SyncStatus.error, h ▸ rfl⟩
  · intro s h1 h2 h3
    simp [getSyncStatusBadge, h1, h2, h3]

/-- Witness for C8 at a concrete out-of-range status string. -/
theorem sync_status_badge_total_witness :
    ("offline" : String) ≠ "success" ∧ ("offline" : String) ≠ "syncing" ∧
    ("offline" : String) ≠ "error" ∧
    getSyncStatusBadge (some "offline") = Badge.pending :=
  ⟨by decide, by decide, by decide,
   sync_status_badge_total.2.2.2.2.2.2 "offline" (by decide) (by decide) (by decide)⟩

/-! ## Credential redaction (modelled from the spec) -/

/-- Modelled from the spec: the error taxonomy of §7. -/
inductive ErrorKind
  | authExpired
  | transientProvider
  | permanentProvider
  | malformedItem
  | storeWriteFailure
deriving DecidableEq

/-- Modelled from the spec: an OAuth token pair held by the Credential
Vault (spec §4.1). -/
structure Tokens where
  access : String
  refresh : String
deriving DecidableEq

/-- Modelled from the spec: the user-visible failure text is always
"sync failed, try again" plus a short reason category, never raw
provider bodies; redaction is enforced at the Vault boundary, so the
message is a function of the error kind alone even though the token
pair is in scope at the call site (spec §4.1, §7). -/
def syncErrorMessage (kind : ErrorKind) (_toks : Tokens) : String :=
  match kind with
  | ErrorKind.authExpired => "sync failed, try again: auth expired"
  | ErrorKind.transientProvider => "sync failed, try again: provider unavailable"
  | ErrorKind.permanentProvider => "sync failed, try again: provider rejected"
  | ErrorKind.malformedItem => "sync failed, try again: malformed item"
  | ErrorKind.storeWriteFailure => "sync failed, try again: store write failed"

/-- Modelled from the spec: structured audit detail payloads carry the
error kind, never token values (spec §4.1, §4.3). -/
def auditDetails (kind : ErrorKind) (_toks : Tokens) : String :=
  match kind with
  | ErrorKind.authExpired => "error=auth_expired"
  | ErrorKind.transientProvider => "error=transient_provider"
  | ErrorKind.permanentProvider => "error=permanent_provider"
  | ErrorKind.malformedItem => "error=malformed_item"
  | ErrorKind.storeWriteFailure => "error=store_write_failure"

/-- The closed vocabulary of user-visible sync failure messages. -/
def syncErrorVocabulary : List String :=
  ["sync failed, try again: auth expired",
   "sync failed, try again: provider unavailable",
   "sync failed, try again: provider rejected",
   "sync failed, try again: malformed item",
   "sync failed, try again: store write failed"]

/-- The closed vocabulary of audit detail payloads. -/
def auditDetailVocabulary : List String :=
  ["error=auth_expired", "error=transient_provider",
   "error=permanent_provider", "error=malformed_item",
   "error=store_write_failure"]

/-- `t` occurs as a contiguous substring of `s`. -/
def occursIn (t s : List Char) : Prop :=
  ∃ pre post, s = pre ++ t ++ post

theorem occursIn_length {t s : List Char} (h : occursIn t s) :
    t.length ≤ s.length := by
  obtain ⟨pre, post, rfl⟩ := h
  simp only [List.length_append]
  omega

/-- C4: stored sync-error messages and audit detail payloads (rendered
verbatim by `AccountPage.js` lines 217–227 and `ConnectionsPage.js`
lines 242–247) do not depend on the raw token values at all, always lie
in a fixed short vocabulary, and can never contain a raw token (tokens
being opaque strings of at least 64 characters, longer than any text
ever stored). -/
theorem credential_redaction :
    (∀ (k : ErrorKind) (t t' : Tokens),
       syncErrorMessage k t = syncErrorMessage k t' ∧
       auditDetails k t = auditDetails k t') ∧
    (∀ (k : ErrorKind) (t : Tokens),
       syncErrorMessage k t ∈ syncErrorVocabulary ∧
       auditDetails k t ∈ auditDetailVocabulary) ∧
    (∀ (k : ErrorKind) (t : Tokens) (tok : List Char), 64 ≤ tok.length →
       ¬ occursIn tok (syncErrorMessage k t).data ∧
       ¬ occursIn tok (auditDetails k t).data) := by
  refine ⟨fun k t t' => ⟨rfl, rfl⟩, fun k t => ?_, fun k t tok hlen => ?_⟩
  · cases k <;>
      simp [syncErrorMessage, auditDetails, syncErrorVocabulary, auditDetailVocabulary]
  · constructor
    · intro hocc
      have hle := occursIn_length hocc
      have hshort : (syncErrorMessage k t).data.length < 64 := by
        cases k <;> simp [syncErrorMessage]
      omega
    · intro hocc
      have hle := occursIn_length hocc
      have hshort : (auditDetails k t).data.length < 64 := by
        cases k <;> simp [auditDetails]
      omega

/-- Witness for C4 with a concrete 64-character token. -/
theorem credential_redaction_witness :
    64 ≤ (List.replicate 64 'a').length ∧
    (¬ occursIn (List.replicate 64 'a')
        (syncErrorMessage ErrorKind.authExpired ⟨"ACCESS", "REFRESH"⟩).data ∧
     ¬ occursIn (List.replicate 64 'a')
        (auditDetails ErrorKind.authExpired ⟨"ACCESS", "REFRESH"⟩).data) :=
  ⟨by simp, credential_redaction.2.2 ErrorKind.authExpired ⟨"ACCESS", "REFRESH"⟩
    (List.replicate 64 'a') (by simp)⟩

/-! ## Account purge (modelled from the spec) -/

/-- Modelled from the spec: an encrypted Credential owned by its
Connection (spec §3). -/
structure Credential where
  user : String
  provider : String
  enc_access : String
  enc_refresh : String
  expires_at : Nat
deriving DecidableEq

/-- Modelled from the spec: a per-(user, provider) sync Cursor
(spec §3). -/
structure Cursor where
  user : String
  provider : String
  position : String
  seq : Nat
deriving DecidableEq

/-- Modelled from the spec: an immutable AuditEntry (spec §3). -/
structure AuditEntry where
  user : String
  action : String
  provider : Option String
  details : String
  timestamp : Nat
deriving DecidableEq

/-- The whole persistent state visible at the account-deletion
boundary. -/
structure VaultState where
  connections : List Connection
  credentials : List Credential
  cursors : List Cursor
  records : List Record
  auditLog : List AuditEntry
deriving DecidableEq

def purgeConnections (s : VaultState) (u : String) : VaultState :=
  { s with connections := s.connections.filter (fun c => c.user != u) }

def purgeCredentials (s : VaultState) (u : String) : VaultState :=
  { s with credentials := s.credentials.filter (fun c => c.user != u) }

def purgeCursors (s : VaultState) (u : String) : VaultState :=
  { s with cursors := s.cursors.filter (fun c => c.user != u) }

def purgeRecords (s : VaultState) (u : String) : VaultState :=
  { s with records := s.records.filter (fun r => r.key.user != u) }

/-- The final audit entry recorded by an account purge. -/
def finalAuditEntry (u : String) (now : Nat) : AuditEntry :=
  ⟨u, "delete_account", none, "account purged", now⟩

def appendFinalAudit (s : VaultState) (u : String) (now : Nat) : VaultState :=
  { s with auditLog := s.auditLog ++ [finalAuditEntry u now] }

def purgeAuditLog (s : VaultState) (u : String) : VaultState :=
  { s with auditLog := s.auditLog.filter (fun e => e.user != u) }

/-- Modelled from the spec: `purgeUser(user)` — one call removes the
user's Connections, Credentials, Cursors and Records, appends one final
AuditEntry, and purges the audit log itself last (spec §6). -/
def purgeUser (s : VaultState) (u : String) (now : Nat) : VaultState :=
  purgeAuditLog
    (appendFinalAudit
      (purgeRecords (purgeCursors (purgeCredentials (purgeConnections s u) u) u) u)
      u now) u

theorem filter_eq_nil_of_filter_ne {α : Type} (l : List α) (f : α → String)
    (u : String) :
    (l.filter (fun x => f x != u)).filter (fun x => f x == u) = [] := by
  rw [List.filter_eq_nil_iff]
  intro x hx
  rw [List.mem_filter] at hx
  have hne := hx.2
  simp only [bne_iff_ne, ne_eq] at hne
  simp [hne]

/-- C5: a single purgeUser call leaves no Connection, Credential,
Cursor, Record or AuditEntry of the user behind, leaves every other
user's data in place, and the final delete_account AuditEntry is the
last entry written before the audit log is purged last. -/
theorem purge_user_complete (s : VaultState) (u : String) (now : Nat) :
    ((purgeUser s u now).connections.filter (fun c => c.user == u) = [] ∧
     (purgeUser s u now).credentials.filter (fun c => c.user == u) = [] ∧
     (purgeUser s u now).cursors.filter (fun c => c.user == u) = [] ∧
     (purgeUser s u now).records.filter (fun r => r.key.user == u) = [] ∧
     (purgeUser s u now).auditLog.filter (fun e => e.user == u) = []) ∧
    (∀ c : Connection,
       c ∈ (purgeUser s u now).connections ↔ c ∈ s.connections ∧ c.user ≠ u) ∧
    (∀ r : Record,
       r ∈ (purgeUser s u now).records ↔ r ∈ s.records ∧ r.key.user ≠ u) ∧
    (∀ e : AuditEntry,
       e ∈ (purgeUser s u now).auditLog ↔ e ∈ s.auditLog ∧ e.user ≠ u) ∧
    (appendFinalAudit
        (purgeRecords (purgeCursors (purgeCredentials (purgeConnections s u) u) u) u)
        u now).auditLog.getLast? = some (finalAuditEntry u now) := by
  have hconn : (purgeUser s u now).connections =
      s.connections.filter (fun c => c.user != u) := rfl
  have hcred : (purgeUser s u now).credentials =
      s.credentials.filter (fun c => c.user != u) := rfl
  have hcur : (purgeUser s u now).cursors =
      s.cursors.filter (fun c => c.user != u) := rfl
  have hrec : (purgeUser s u now).records =
      s.records.filter (fun r => r.key.user != u) := rfl
  have haud : (purgeUser s u now).auditLog =
      (s.auditLog ++ [finalAuditEntry u now]).filter (fun e => e.user != u) := rfl
  refine ⟨⟨?_, ?_, ?_, ?_, ?_⟩, ?_, ?_, ?_, ?_⟩
  · rw [hconn]
    exact filter_eq_nil_of_filter_ne s.connections Connection.user u
  · rw [hcred]
    exact filter_eq_nil_of_filter_ne s.credentials Credential.user u
  · rw [hcur]
    exact filter_eq_nil_of_filter_ne s.cursors Cursor.user u
  · rw [hrec]
    exact filter_eq_nil_of_filter_ne s.records (fun r => r.key.user) u
  · rw [haud]
    exact filter_eq_nil_of_filter_ne _ AuditEntry.user u
  · intro c
    rw [hconn]
    simp [List.mem_filter]
  · intro r
    rw [hrec]
    simp [List.mem_filter]
  · intro e
    rw [haud]
    simp only [List.filter_append, List.mem_append, List.mem_filter, bne_iff_ne, ne_eq]
    constructor
    · rintro (⟨he, hne⟩ | ⟨hfin, hne⟩)
      · exact ⟨he, hne⟩
      · have heq : e = finalAuditEntry u now := List.mem_singleton.mp hfin
        subst heq
        simp [finalAuditEntry] at hne
    · rintro ⟨he, hne⟩
      exact Or.inl ⟨he, hne⟩
  · simp [appendFinalAudit]

/-- A connection belonging to a second user, untouched by the purge of
the first. -/
def otherConn : Connection :=
  ⟨"u2", "strava", true, none, SyncStatus.pending, none⟩

/-- A sample audit entry for the purged user. -/
def sampleAudit : AuditEntry := ⟨"u1", "sync", some "spotify", "ok", 5⟩

/-- A sample vault state holding data of users u1 and u2. -/
def sampleState2 : VaultState :=
  ⟨[sampleConn, otherConn], [⟨"u1", "spotify", "encA", "encR", 100⟩],
   [⟨"u1", "spotify", "c0", 1⟩], [sampleRec2], [sampleAudit]⟩

/-- Witness for C5 at a concrete two-user state. -/
theorem purge_user_complete_witness :
    ((purgeUser sampleState2 "u1" 42).connections.filter
        (fun c => c.user == "u1") = [] ∧
     (purgeUser sampleState2 "u1" 42).records.filter
        (fun r => r.key.user == "u1") = []) ∧
    otherConn ∈ (purgeUser sampleState2 "u1" 42).connections :=
  ⟨⟨(purge_user_complete sampleState2 "u1" 42).1.1,
    (purge_user_complete sampleState2 "u1" 42).1.2.2.2.1⟩,
   ((purge_user_complete sampleState2 "u1" 42).2.1 otherConn).mpr
     ⟨by decide, by decide⟩⟩

/-! ## Disconnect (modelled from the spec) and `getConnection` -/

/-- The per-row effect of a disconnect: the matching (user, provider)
connection loses its active flag, every other row is untouched. -/
def deactivateIfMatch (u p : String) (c : Connection) : Connection :=
  if c.user == u && c.provider == p then { c with is_active := false } else c

/-- Modelled from the spec: disconnect deactivates the Connection —
sets its active flag to false — and does not hard-delete it; nothing
else in the state is touched (spec §3, §6). -/
def disconnect (s : VaultState) (u p : String) : VaultState :=
  { s with connections := s.connections.map (deactivateIfMatch u p) }

/-- From `ConnectionsPage.js` lines 123–125:
`connections.find(c => c.provider === providerId && c.is_active)`. -/
def getConnection (connections : List Connection) (providerId : String) :
    Option Connection :=
  connections.find? (fun c => c.provider == providerId && c.is_active)

/-- C6: disconnect keeps the Connection row (same row count), leaves
records, credentials, cursors and the audit log unchanged, keeps every
non-matching connection verbatim, replaces the matching connection by
the same row with active set to false, and afterwards `getConnection`
no longer reports the provider as connected. -/
theorem disconnect_deactivates_only (s : VaultState) (u p : String) :
    (disconnect s u p).connections.length = s.connections.length ∧
    (disconnect s u p).records = s.records ∧
    (disconnect s u p).credentials = s.credentials ∧
    (disconnect s u p).cursors = s.cursors ∧
    (disconnect s u p).auditLog = s.auditLog ∧
    (∀ c ∈ s.connections, ¬ (c.user = u ∧ c.provider = p) →
       c ∈ (disconnect s u p).connections) ∧
    (∀ c ∈ s.connections, c.user = u → c.provider = p →
       { c with is_active := false } ∈ (disconnect s u p).connections) ∧
    getConnection ((disconnect s u p).connections.filter (fun c => c.user == u))
      p = none := by
  refine ⟨by simp [disconnect], rfl, rfl, rfl, rfl, ?_, ?_, ?_⟩
  · intro c hc hnot
    have hcond : (c.user == u && c.provider == p) = false := by
      rcases not_and_or.mp hnot with h | h <;> simp [h]
    have hmm := List.mem_map_of_mem (deactivateIfMatch u p) hc
    simpa [disconnect, deactivateIfMatch, hcond] using hmm
  · intro c hc hu hp
    have hcond : (c.user == u && c.provider == p) = true := by
      simp [hu, hp]
    have hmm := List.mem_map_of_mem (deactivateIfMatch u p) hc
    simpa [disconnect, deactivateIfMatch, hcond] using hmm
  · rw [getConnection, List.find?_eq_none]
    intro c hc
    rw [List.mem_filter] at hc
    obtain ⟨hmem, huser⟩ := hc
    simp only [disconnect, List.mem_map] at hmem
    obtain ⟨orig, _, horig⟩ := hmem
    by_cases hcond : (orig.user == u && orig.provider == p) = true
    · rw [deactivateIfMatch, if_pos hcond] at horig
      rw [← horig]
      simp
    · rw [deactivateIfMatch, if_neg hcond] at horig
      simp only [Bool.and_eq_true, beq_iff_eq, not_and] at hcond
      have huc : c.user = u := by simpa using huser
      have hou : orig.user = u := by rw [← horig] at huc; exact huc
      have hop : ¬ orig.provider = p := hcond hou
      rw [← horig]
      simp [hop]

/-- A sample state holding one active spotify connection and one
record. -/
def sampleState : VaultState := ⟨[sampleConn], [], [], [sampleRec2], []⟩

/-- Witness for C6 at a concrete state. -/
theorem disconnect_deactivates_only_witness :
    (sampleConn ∈ sampleState.connections ∧ sampleConn.user = "u1" ∧
     sampleConn.provider = "spotify") ∧
    { sampleConn with is_active := false } ∈
      (disconnect sampleState "u1" "spotify").connections ∧
    (disconnect sampleState "u1" "spotify").records = sampleState.records ∧
    getConnection ((disconnect sampleState "u1" "spotify").connections.filter
      (fun c => c.user == "u1")) "spotify" = none :=
  ⟨⟨by decide, by decide, by decide⟩,
   (disconnect_deactivates_only sampleState "u1" "spotify").2.2.2.2.2.2.1
     sampleConn (by decide) (by decide) (by decide),
   (disconnect_deactivates_only sampleState "u1" "spotify").2.1,
   (disconnect_deactivates_only sampleState "u1" "spotify").2.2.2.2.2.2.2⟩

/-! ## Insights summary and the optional narrative -/

/-- The counts and aggregates a summary request always computes. -/
structure SummaryStats where
  tracks_count : Nat
  workouts_count : Nat
  events_count : Nat
  top_artists : List (String × Nat)
deriving DecidableEq

/-- The summary payload the dashboard receives
(`insights` in `DashboardPage.js`). -/
structure Summary where
  tracks_count : Nat
  workouts_count : Nat
  events_count : Nat
  top_artists : List (String × Nat)
  ai_narrative : Option String
deriving DecidableEq

/-- Modelled from the spec: `summary(user, rangeDays)` returns counts
per dataset and top-N aggregates, with narrative text produced only
when explicitly requested (the `use_ai` flag the frontend sends in
`DashboardPage.js` lines 25–35); a narrative failure degrades to a
summary without narrative and never fails the whole request
(spec §6). -/
def summary (stats : SummaryStats) (use_ai : Bool)
    (narrative : Except String String) : Summary :=
  { tracks_count := stats.tracks_count
    workouts_count := stats.workouts_count
    events_count := stats.events_count
    top_artists := stats.top_artists
    ai_narrative :=
      if use_ai then
        match narrative with
        | Except.ok text => some text
        | Except.error _ => none
      else none }

/-- From `DashboardPage.js` line 113: the stats cards render whenever
`insights` is present, regardless of the narrative. -/
def rendersStatsCards (insights : Option Summary) : Bool :=
  insights.isSome

/-- From `DashboardPage.js` line 187: the narrative card renders only
when `insights?.ai_narrative` is present. -/
def rendersNarrativeCard (insights : Option Summary) : Bool :=
  match insights with
  | none => false
  | some s => s.ai_narrative.isSome

/-- C7: without the use_ai flag no narrative is produced; when the
narrative step fails the summary still carries all counts and
aggregates with no narrative — the request never fails; the dashboard
renders the stats cards whether or not ai_narrative is present. -/
theorem summary_narrative_degrades (stats : SummaryStats)
    (narrative : Except String String) (err : String) :
    ((summary stats false narrative).ai_narrative = none ∧
     (summary stats false narrative).tracks_count = stats.tracks_count ∧
     (summary stats false narrative).workouts_count = stats.workouts_count ∧
     (summary stats false narrative).events_count = stats.events_count ∧
     (summary stats false narrative).top_artists = stats.top_artists) ∧
    ((summary stats true (Except.error err)).ai_narrative = none ∧
     (summary stats true (Except.error err)).tracks_count = stats.tracks_count ∧
     (summary stats true (Except.error err)).workouts_count = stats.workouts_count ∧
     (summary stats true (Except.error err)).events_count = stats.events_count ∧
     (summary stats true (Except.error err)).top_artists = stats.top_artists) ∧
    (∀ s : Summary, rendersStatsCards (some s) = true) ∧
    rendersNarrativeCard (some (summary stats true (Except.error err))) = false ∧
    (∀ text : String,
       (summary stats true (Except.ok text)).ai_narrative = some text) := by
  refine ⟨⟨rfl, rfl, rfl, rfl, rfl⟩, ⟨rfl, rfl, rfl, rfl, rfl⟩,
    fun s => rfl, ?_, fun text => rfl⟩
  simp [rendersNarrativeCard, summary]

/-! ## File-size formatting (from `ExportsPage`, src/unnamed/part_001) -/

/-- From `ExportsPage` line 57: `const sizes = ['Bytes','KB','MB','GB']`. -/
def sizes : List String := ["Bytes", "KB", "MB", "GB"]

/-- From `ExportsPage` line 58: the unit index
`Math.floor(Math.log(bytes) / Math.log(1024))`, in exact arithmetic the
base-1024 integer logarithm. -/
def unitIndex (bytes : Nat) : Nat := Nat.log 1024 bytes

/-- The shape of `formatFileSize`'s result: the literal "0 Bytes", or a
rounded number next to `sizes[i]` (`none` models JavaScript's
`undefined` when `i` falls outside the list). -/
inductive FileSizeText where
  | zeroBytes
  | sized (num : ℚ) (unit : Option String)
deriving DecidableEq

/-- From `ExportsPage` lines 54–60: `formatFileSize` returns "0 Bytes"
for 0, otherwise `Math.round(bytes / Math.pow(k, i) * 100) / 100`
followed by `sizes[i]`. -/
def formatFileSize (bytes : Nat) : FileSizeText :=
  if bytes = 0 then FileSizeText.zeroBytes
  else FileSizeText.sized
    (((round ((bytes : ℚ) / 1024 ^ unitIndex bytes * 100) : ℤ) : ℚ) / 100)
    (sizes.get? (unitIndex bytes))

/-- Counterexample to C9 as stated: at 2^41 bytes (2 TB) the computed
unit index is 4, which is not a valid index into the four-element unit
list, so the unit lookup yields `undefined`. -/
theorem formatFileSize_unit_overflow :
    1 ≤ 2 ^ 41 ∧ ¬ unitIndex (2 ^ 41) < sizes.length ∧
    sizes.get? (unitIndex (2 ^ 41)) = none := by
  have hlog : Nat.log 1024 (2 ^ 41) = 4 := by
    apply Nat.log_eq_of_pow_le_of_lt_pow
    · norm_num
    · norm_num
  refine ⟨by norm_num, ?_, ?_⟩
  · rw [unitIndex, hlog]
    simp [sizes]
  · rw [unitIndex, hlog]
    rfl

/-- C9 (amended): formatFileSize(0) is "0 Bytes"; for every byte count
1 ≤ b < 1024^4 the computed unit index is a valid index into the
four-element unit list and the function returns a rounded number with
one of the four unit names; from 1024^4 bytes on the index falls
outside the list. -/
theorem formatFileSize_unit_valid_below_tb :
    formatFileSize 0 = FileSizeText.zeroBytes ∧
    (∀ b : Nat, 1 ≤ b → b < 1024 ^ 4 →
       unitIndex b < sizes.length ∧
       ∃ q u, formatFileSize b = FileSizeText.sized q (some u) ∧ u ∈ sizes) ∧
    (∀ b : Nat, 1024 ^ 4 ≤ b → sizes.get? (unitIndex b) = none) := by
  refine ⟨rfl, ?_, ?_⟩
  · intro b hb1 hblt
    have hb0 : b ≠ 0 := by omega
    have hlog : Nat.log 1024 b < 4 := Nat.log_lt_of_lt_pow hb0 hblt
    have hlen : unitIndex b < sizes.length := by
      simpa [unitIndex, sizes] using hlog
    refine ⟨hlen, ?_⟩
    refine ⟨((round ((b : ℚ) / 1024 ^ unitIndex b * 100) : ℤ) : ℚ) / 100,
      sizes.get ⟨unitIndex b, hlen⟩, ?_, List.get_mem sizes _ hlen⟩
    rw [formatFileSize, if_neg hb0, List.get?_eq_get hlen]
  · intro b hble
    have hlog : 4 ≤ Nat.log 1024 b := by
      have hb0 : b ≠ 0 := by positivity
      exact (Nat.pow_le_iff_le_log (by norm_num) hb0).mp hble
    apply List.get?_eq_none.mpr
    simpa [unitIndex, sizes] using hlog

/-- Witness for the amended C9 at a concrete half-megabyte size. -/
theorem formatFileSize_unit_valid_below_tb_witness :
    1 ≤ 500000 ∧ 500000 < 1024 ^ 4 ∧
    (unitIndex 500000 < sizes.length ∧
     ∃ q u, formatFileSize 500000 = FileSizeText.sized q (some u) ∧ u ∈ sizes) :=
  ⟨by norm_num, by norm_num,
   formatFileSize_unit_valid_below_tb.2.1 500000 (by norm_num) (by norm_num)⟩

/-! ## Export expiry (from `ExportsPage`, src/unnamed/part_001) -/

/-- From `ExportsPage` lines 67–69:
`isExpired(expiresAt) = new Date(expiresAt) < new Date()` — expired
exactly when the expiry instant is strictly earlier than now
(timestamps as epoch milliseconds). -/
def isExpired (expiresAt now : Int) : Bool :=
  decide (expiresAt < now)

/-- An export list item as the Exports page receives it. -/
structure ExportItem where
  id : String
  file_name : String
  file_size : Nat
  created_at : Int
  expires_at : Int
  download_token : String
deriving DecidableEq

/-- What the page puts in the download column of one export row. -/
inductive DownloadCell where
  | downloadLink (href : String)
  | expiredMarker
deriving DecidableEq

/-- From `ExportsPage` lines 127–183: per export item the page computes
`expired = isExpired(exportItem.expires_at)` and renders either the
Download link at `api + "/export/download/" + download_token` or the
Expired marker. -/
def renderDownloadCell (api : String) (item : ExportItem) (now : Int) :
    DownloadCell :=
  if isExpired item.expires_at now then DownloadCell.expiredMarker
  else DownloadCell.downloadLink
    (api ++ "/export/download/" ++ item.download_token)

/-- C10: a Download link (pointing at the item's download_token URL) is
rendered iff expires_at is not earlier than now; when expires_at is
strictly earlier than now an Expired marker is rendered instead and no
link appears. -/
theorem export_download_link_iff_not_expired (api : String)
    (item : ExportItem) (now : Int) :
    ((∃ href, renderDownloadCell api item now = DownloadCell.downloadLink href) ↔
       ¬ item.expires_at < now) ∧
    (item.expires_at < now →
       renderDownloadCell api item now = DownloadCell.expiredMarker) ∧
    (¬ item.expires_at < now →
       renderDownloadCell api item now = DownloadCell.downloadLink
         (api ++ "/export/download/" ++ item.download_token)) := by
  refine ⟨⟨?_, ?_⟩, ?_, ?_⟩
  · rintro ⟨href, h⟩ hlt
    simp [renderDownloadCell, isExpired, hlt] at h
  · intro hge
    exact ⟨api ++ "/export/download/" ++ item.download_token,
      by simp [renderDownloadCell, isExpired, hge]⟩
  · intro hlt
    simp [renderDownloadCell, isExpired, hlt]
  · intro hge
    simp [renderDownloadCell, isExpired, hge]

/-- A sample export row that expires at time 200. -/
def sampleExport : ExportItem := ⟨"e1", "vault.zip", 5000, 100, 200, "tok123"⟩

/-- Witness for C10 at a concrete unexpired export row. -/
theorem export_download_link_iff_not_expired_witness :
    ¬ (sampleExport.expires_at < (150 : Int)) ∧
    renderDownloadCell "/api" sampleExport 150 = DownloadCell.downloadLink
      ("/api" ++ "/export/download/" ++ sampleExport.download_token) :=
  ⟨by decide,
   (export_download_link_iff_not_expired "/api" sampleExport 150).2.2 (by decide)⟩
